import Mathlib

/-!
Verification development for the notionSync repository.

Shallow embedding of the reconciliation-and-cache engine:
  * `src/exporters/cache.py`   — `ExportCache` (load, save, get_entry,
    has_changes, set_entry, get_external_id)
  * `src/exporters/base.py`    — `TaskExporter.extract_task_data`
  * `src/exporters/apple_calendar.py` — `AppleCalendarExporter.export_tasks`
    and its record-level helpers `_create_event`, `_update_event`,
    `_get_event_by_id`.

Conventions of the embedding:
  * Python dictionaries produced by the code itself are modelled as Lean
    structures whose `Option` fields stand for keys that may be absent or
    hold `None` (the two are indistinguishable through the `dict.get`
    accesses the code performs).
  * Python string truthiness (`if not s:` treats both `None` and the empty
    string as false) is modelled by `strTruthy`.
  * The EventKit boundary (event store, calendar, save calls) is modelled
    by an abstract `Target` record of outcome functions; an outcome can be
    success, failure (the call returns falsy / `None`), or a raised
    exception (among the event calls, only creation can raise:
    `_update_event` and `_get_event_by_id` catch their own exceptions,
    `_create_event` does not).
  * The filesystem boundary of the cache persist is modelled by `FileSys`:
    the `mkdir` in `ExportCache._save` sits outside the `try`/`except`
    guarding the write, so it can raise out of `set_entry` into the
    per-task handler, after the bucket increment and the in-memory cache
    mutation have both happened.
  * `datetime.now().isoformat()` is modelled by an explicit `now : String`
    parameter threaded to every `set_entry`.
-/

/-- Python truthiness of an optional string: `None` and `""` are falsy. -/
def strTruthy : Option String → Bool
  | none => false
  | some s => s != ""

/-- The dictionary returned by `TaskExporter.extract_task_data`
(`src/exporters/base.py`, lines 100-110): always exactly these nine keys. -/
structure TaskData where
  id : Option String
  title : String
  due_start : Option String
  due_end : Option String
  status : Option String
  assignees : List String
  created_time : Option String
  last_edited_time : Option String
  url : Option String
deriving DecidableEq

/-- One value of the cache dictionary, as written by `ExportCache.set_entry`
(`src/exporters/cache.py`, lines 100-105). -/
structure CacheEntry where
  external_id : String
  task_data : TaskData
  exporter_type : String
  last_synced : String
deriving DecidableEq

/-- Cache keys: `export_tasks` uses `task.get("id")`, which can be `None`
for a page without an id, so the runtime key type is an optional string. -/
abbrev Key := Option String

/-- The in-memory cache dictionary `self.cache`, an insertion-ordered map
from notion id to entry (Python 3 dicts preserve insertion order). -/
abbrev Cache := List (Key × CacheEntry)

/-- Dictionary lookup `self.cache.get(notion_id)`. -/
def Cache.get : Cache → Key → Option CacheEntry
  | [], _ => none
  | (k, e) :: rest, k2 => if k = k2 then some e else Cache.get rest k2

/-- Dictionary assignment `self.cache[notion_id] = entry`: replaces the
value in place if the key is present, otherwise appends at the end. -/
def Cache.set : Cache → Key → CacheEntry → Cache
  | [], k, e => [(k, e)]
  | (k1, e1) :: rest, k, e =>
    if k1 = k then (k, e) :: rest else (k1, e1) :: Cache.set rest k e

namespace ExportCache

/-- Models `ExportCache.get_entry` (`cache.py`, lines 49-58). -/
def getEntry (cache : Cache) (notion_id : Key) : Option CacheEntry :=
  Cache.get cache notion_id

/-- Models `ExportCache.has_changes` (`cache.py`, lines 60-83): true when no entry
exists, or when one of the watched fields
`fields_to_check = [title, due_start, due_end, status]` differs (exact
equality of the `dict.get` values). -/
def hasChanges (cache : Cache) (notion_id : Key) (task_data : TaskData) : Bool :=
  match getEntry cache notion_id with
  | none => true
  | some entry =>
    let cached := entry.task_data
    (task_data.title != cached.title) ||
    (task_data.due_start != cached.due_start) ||
    (task_data.due_end != cached.due_end) ||
    (task_data.status != cached.status)

/-- Models `ExportCache.set_entry` (`cache.py`, lines 85-106); `now` models
`datetime.now().isoformat()`.  The function returns the mutated in-memory
store, which exists whether or not the `_save` call that follows the
assignment succeeds; the on-disk format of that save is modelled by the
serializer `encodeCache` below and its failure behavior by the `FileSys`
oracle. -/
def setEntry (cache : Cache) (notion_id : Key) (external_id : String)
    (task_data : TaskData) (exporter_type : String) (now : String) : Cache :=
  Cache.set cache notion_id
    { external_id := external_id, task_data := task_data,
      exporter_type := exporter_type, last_synced := now }

/-- Models `ExportCache.get_external_id` (`cache.py`, lines 140-150). -/
def getExternalId (cache : Cache) (notion_id : Key) : Option String :=
  (getEntry cache notion_id).map (fun e => e.external_id)

end ExportCache

/-! ## The Notion page model and `extract_task_data` -/

/-- One element of a title rich-text array; `part.get("plain_text", "")`
defaults a missing key to the empty string. -/
structure TitlePart where
  plain_text : Option String

/-- The value of `properties["Task name"]`; `title_prop.get("title", [])`
defaults to the empty list, which we identify with an absent key. -/
structure TitleProp where
  title : List TitlePart

/-- The value of `due_prop["date"]`: `start` and `end` keys.  (The JSON key
named end is renamed `stop`, end being a reserved word in Lean.) -/
structure DateRange where
  start : Option String
  stop : Option String

/-- The value of `properties["Due"]`; `due_prop.get("date", {})` together
with the later `if due_date` truthiness test makes an absent, null or empty
date indistinguishable, all modelled by `none`. -/
structure DueProp where
  date : Option DateRange

/-- The value of `status_prop["status"]`. -/
structure StatusObj where
  name : Option String

/-- The value of `properties["Status"]`; absent, null and `{}` collapse to
`none` through `status_prop.get("status", {})` plus the `if status` test. -/
structure StatusProp where
  status : Option StatusObj

/-- One element of the people array; `person.get("name", "Unknown")`. -/
structure Person where
  name : Option String

/-- The value of `properties["Assign"]`. -/
structure AssignProp where
  people : List Person

/-- The `properties` object of a Notion page, restricted to the four
property keys the code reads (absent keys behave as their defaults). -/
structure PageProps where
  task_name : TitleProp
  due : DueProp
  status : StatusProp
  assign : AssignProp

/-- A Notion page object, restricted to the keys the code reads:
`id`, `properties`, `created_time`, `last_edited_time`, `url`. -/
structure NotionPage where
  id : Option String
  properties : PageProps
  created_time : Option String
  last_edited_time : Option String
  url : Option String

/-- Models `TaskExporter.extract_task_data` (`base.py`, lines 65-110). -/
def extractTaskData (task : NotionPage) : TaskData :=
  let properties := task.properties
  let title_parts := properties.task_name.title
  let joined := String.join (title_parts.map (fun part => part.plain_text.getD ("")))
  let title := if joined = "" then ("Untitled") else joined
  let due_date := properties.due.date
  let due_start := match due_date with
    | some d => d.start
    | none => none
  let due_end := match due_date with
    | some d => d.stop
    | none => none
  let status_name := match properties.status.status with
    | some s => s.name
    | none => none
  let assignees := properties.assign.people.map (fun person => person.name.getD ("Unknown"))
  { id := task.id, title := title, due_start := due_start, due_end := due_end,
    status := status_name, assignees := assignees,
    created_time := task.created_time,
    last_edited_time := task.last_edited_time, url := task.url }

/-! ## The Apple Calendar exporter -/

/-- The configuration options `export_tasks` consults for its decisions
(`apple_calendar.py`, line 41): only `skip_completed` influences the
create/update/skip classification. -/
structure Config where
  skip_completed : Bool

/-- Preflight environment: the outcomes of `validate_config`,
`_request_calendar_access` and `_get_or_create_calendar`, which depend only
on the process environment (EventKit availability, platform, permissions),
not on the task list. -/
structure Env where
  config_valid : Bool
  access_granted : Bool
  calendar_ready : Bool

/-- Outcome of the event-creation attempt inside `_create_event`
(`apple_calendar.py`, lines 324-369): the store either saves the event and
yields its identifier, fails (prints a warning and `_create_event` returns
`None`), or raises an exception (`_parse_date` / EventKit), which
propagates to the per-task `try` in `export_tasks`. -/
inductive CreateOutcome where
  | ok (event_id : String)
  | failed
  | raises (msg : String)

/-- True when the outcome is a successful save. -/
def CreateOutcome.isOk : CreateOutcome → Bool
  | .ok _ => true
  | _ => false

/-- The EventKit boundary.  `fetch` models `_get_event_by_id` (which
catches its own exceptions and returns `None`, so it is just found or not
found); `update` models `_update_event` (which catches its own exceptions
and returns `False`, so it is just a boolean); `create` models the save in
`_create_event`, which can raise. -/
structure Target where
  create : TaskData → CreateOutcome
  fetch : String → Bool
  update : String → TaskData → Bool

/-- The status label compared by the skip-completed policy. -/
def doneStatus : String := "Done"

/-- The exporter name `get_exporter_name` (`apple_calendar.py`, line 26). -/
def exporterName : String := "apple_calendar"

/-- Models `AppleCalendarExporter._create_event` (`apple_calendar.py`, lines
307-369): re-checks the due-date and skip-completed policies, then attempts
the save; `.ok none` is Python `return None`, `.error` a raised
exception. -/
def createEvent (cfg : Config) (tgt : Target) (task_data : TaskData) :
    Except String (Option String) :=
  if strTruthy task_data.due_start = false then .ok none
  else if (cfg.skip_completed && (task_data.status == some doneStatus)) = true then .ok none
  else match tgt.create task_data with
    | .ok event_id => .ok (some event_id)
    | .failed => .ok none
    | .raises m => .error m

/-- The batch result dictionary of `export_tasks`
(`apple_calendar.py`, lines 380-386). -/
structure BatchResult where
  success : Bool
  created : Nat
  updated : Nat
  skipped : Nat
  errors : List String
deriving DecidableEq

/-- Models the increment of the created counter. -/
def incCreated (r : BatchResult) : BatchResult := { r with created := r.created + 1 }

/-- Models the increment of the updated counter. -/
def incUpdated (r : BatchResult) : BatchResult := { r with updated := r.updated + 1 }

/-- Models the increment of the skipped counter. -/
def incSkipped (r : BatchResult) : BatchResult := { r with skipped := r.skipped + 1 }

/-- Models appending a message to the result error list. -/
def addError (r : BatchResult) (msg : String) : BatchResult :=
  { r with errors := r.errors ++ [msg] }

/-- The error message built in the per-task `except` clause
(`apple_calendar.py`, line 461); a page without an id renders as
"unknown". -/
def errMsg (task : NotionPage) (m : String) : String :=
  "Error processing task " ++ (task.id.getD ("unknown")) ++ ": " ++ m

/-- Filesystem boundary of `ExportCache._save` (`cache.py`, lines 38-47):
the `mkdir` on line 41 sits outside the `try`/`except IOError` that guards
the write itself, so an `OSError` raised by it escapes `set_entry` into
the per-task handler of `export_tasks` (the write IOError, by contrast,
is caught and only printed).  `saveExn` gives, for the store value being
persisted, the uncaught exception message of that save call if any; a
constant function models a persistent filesystem condition. -/
structure FileSys where
  saveExn : Cache → Option String

/-- The filesystem on which every save call succeeds (no uncaught
exception from `_save`). -/
def fsOk : FileSys := { saveExn := fun _ => none }

/-- A filesystem on which every save call raises from the `mkdir`
(for example the cache directory path exists as a regular file). -/
def failFS : FileSys := { saveExn := fun _ => some ("mkdir failed") }

/-- The body of the per-task loop of `export_tasks`
(`apple_calendar.py`, lines 404-463), including the surrounding
`try`/`except`.  Mirrors the source exactly: the due-date and
skip-completed filters, the `has_changes` test, the truthiness test on the
cached external id, the update path with fallback creation when the event
is gone, and the creation path.  On the two success paths the bucket
increment precedes `set_entry` in the source, and `set_entry` mutates the
in-memory dictionary before calling `_save`; so when the save raises
(see `FileSys`), the bucket increment and the cache mutation both stand
and the per-task handler appends an error message as well. -/
def processTaskFS (cfg : Config) (tgt : Target) (fs : FileSys) (now : String)
    (st : Cache × BatchResult) (task : NotionPage) : Cache × BatchResult :=
  let cache := st.1
  let r := st.2
  let notion_id := task.id
  let task_data := extractTaskData task
  if strTruthy task_data.due_start = false then (cache, incSkipped r)
  else if (cfg.skip_completed && (task_data.status == some doneStatus)) = true then
    (cache, incSkipped r)
  else if ExportCache.hasChanges cache notion_id task_data = true then
    let createBranch : Cache × BatchResult :=
      match createEvent cfg tgt task_data with
      | .ok (some new_event_id) =>
        let cache2 :=
          ExportCache.setEntry cache notion_id new_event_id task_data exporterName now
        (match fs.saveExn cache2 with
         | none => (cache2, incCreated r)
         | some m => (cache2, addError (incCreated r) (errMsg task m)))
      | .ok none => (cache, incSkipped r)
      | .error m => (cache, addError r (errMsg task m))
    match ExportCache.getExternalId cache notion_id with
    | some event_id =>
      if event_id = "" then createBranch
      else if tgt.fetch event_id then
        if tgt.update event_id task_data then
          let cache2 :=
            ExportCache.setEntry cache notion_id event_id task_data exporterName now
          (match fs.saveExn cache2 with
           | none => (cache2, incUpdated r)
           | some m => (cache2, addError (incUpdated r) (errMsg task m)))
        else (cache, incSkipped r)
      else createBranch
    | none => createBranch
  else (cache, incSkipped r)

/-- The per-task loop body on the never-raising filesystem, the instance
adequate for the claims to which the persist failure path is immaterial
(it alters neither the cache mutation nor the bucket classification, only
the appended error message). -/
def processTask (cfg : Config) (tgt : Target) (now : String)
    (st : Cache × BatchResult) (task : NotionPage) : Cache × BatchResult :=
  processTaskFS cfg tgt fsOk now st task

/-- The `for task in tasks` loop of `export_tasks`. -/
def exportLoopFS (cfg : Config) (tgt : Target) (fs : FileSys) (now : String)
    (st : Cache × BatchResult) (tasks : List NotionPage) : Cache × BatchResult :=
  tasks.foldl (processTaskFS cfg tgt fs now) st

/-- The task loop on the never-raising filesystem. -/
def exportLoop (cfg : Config) (tgt : Target) (now : String)
    (st : Cache × BatchResult) (tasks : List NotionPage) : Cache × BatchResult :=
  exportLoopFS cfg tgt fsOk now st tasks

/-- Error message of the `validate_config` early return. -/
def msgConfigFailed : String := "Configuration validation failed"

/-- Error message of the calendar-access early return. -/
def msgAccessDenied : String := "Calendar access denied"

/-- Error message of the calendar-acquisition early return. -/
def msgCalendarFailed : String := "Failed to get/create calendar"

/-- Models `AppleCalendarExporter.export_tasks` (`apple_calendar.py`, lines
371-466): preflight checks with early returns, the per-task loop, and the
final `success = (len(errors) == 0)`.  Returns the final cache state
together with the result dictionary. -/
def exportTasksFS (cfg : Config) (env : Env) (tgt : Target) (fs : FileSys)
    (now : String) (cache : Cache) (tasks : List NotionPage) :
    Cache × BatchResult :=
  let r0 : BatchResult :=
    { success := false, created := 0, updated := 0, skipped := 0, errors := [] }
  if env.config_valid = false then (cache, addError r0 msgConfigFailed)
  else if env.access_granted = false then (cache, addError r0 msgAccessDenied)
  else if env.calendar_ready = false then (cache, addError r0 msgCalendarFailed)
  else
    let res := exportLoopFS cfg tgt fs now (cache, r0) tasks
    (res.1, { res.2 with success := res.2.errors.isEmpty })

/-- The whole export on the never-raising filesystem. -/
def exportTasks (cfg : Config) (env : Env) (tgt : Target) (now : String)
    (cache : Cache) (tasks : List NotionPage) : Cache × BatchResult :=
  exportTasksFS cfg env tgt fsOk now cache tasks

/-! ## Cache persistence: `_save` / `_load` (`cache.py`, lines 26-47)

`_save` serializes `self.cache` with `json.dump`; `_load` reads the file
back with `json.load`.  The JSON values the cache can produce use only
null, strings, arrays and objects, so the AST below suffices. -/

/-- JSON values occurring in a cache file. -/
inductive Json where
  | null
  | str (s : String)
  | arr (items : List Json)
  | obj (fields : List (String × Json))

/-- Serialization of an optional string: Python `None` becomes JSON
null. -/
def encodeOptStr : Option String → Json
  | none => Json.null
  | some s => Json.str s

/-- Inverse of `encodeOptStr`. -/
def decodeOptStr : Json → Option (Option String)
  | Json.null => some none
  | Json.str s => some (some s)
  | _ => none

/-- Serialization of the assignees list. -/
def encodeStrList (l : List String) : Json :=
  Json.arr (l.map Json.str)

/-- Inverse of `encodeStrList` on the element list. -/
def decodeStrList : List Json → Option (List String)
  | [] => some []
  | Json.str s :: rest => (decodeStrList rest).map (fun l => s :: l)
  | _ => none

/-- Serialization image of one `task_data` snapshot dictionary. -/
def encodeTaskData (td : TaskData) : Json :=
  Json.obj
    [("id", encodeOptStr td.id),
     ("title", Json.str td.title),
     ("due_start", encodeOptStr td.due_start),
     ("due_end", encodeOptStr td.due_end),
     ("status", encodeOptStr td.status),
     ("assignees", encodeStrList td.assignees),
     ("created_time", encodeOptStr td.created_time),
     ("last_edited_time", encodeOptStr td.last_edited_time),
     ("url", encodeOptStr td.url)]

/-- Reading a snapshot dictionary back into the structured view used by
all subsequent code (the save format written by `encodeTaskData`). -/
def decodeTaskData : Json → Option TaskData
  | Json.obj [("id", i), ("title", Json.str t), ("due_start", ds),
      ("due_end", de), ("status", st), ("assignees", Json.arr people),
      ("created_time", ct), ("last_edited_time", le), ("url", u)] => do
    let id ← decodeOptStr i
    let due_start ← decodeOptStr ds
    let due_end ← decodeOptStr de
    let status ← decodeOptStr st
    let assignees ← decodeStrList people
    let created_time ← decodeOptStr ct
    let last_edited_time ← decodeOptStr le
    let url ← decodeOptStr u
    some { id := id, title := t, due_start := due_start, due_end := due_end,
           status := status, assignees := assignees,
           created_time := created_time,
           last_edited_time := last_edited_time, url := url }
  | _ => none

/-- Serialization image of one cache entry (the dictionary written by
`set_entry`). -/
def encodeEntry (e : CacheEntry) : Json :=
  Json.obj
    [("external_id", Json.str e.external_id),
     ("task_data", encodeTaskData e.task_data),
     ("exporter_type", Json.str e.exporter_type),
     ("last_synced", Json.str e.last_synced)]

/-- Reading one cache entry back. -/
def decodeEntry : Json → Option CacheEntry
  | Json.obj [("external_id", Json.str x), ("task_data", td),
      ("exporter_type", Json.str et), ("last_synced", Json.str ls)] => do
    let task_data ← decodeTaskData td
    some { external_id := x, task_data := task_data,
           exporter_type := et, last_synced := ls }
  | _ => none

/-- Key serialization: `json.dump` renders a `None` dictionary key as the
string "null". -/
def keyStr : Key → String
  | some s => s
  | none => "null"

/-- Models `ExportCache._save` (`cache.py`, lines 38-47): the JSON document
written for the whole cache dictionary, in insertion order. -/
def encodeCache (c : Cache) : Json :=
  Json.obj (c.map (fun p => (keyStr p.1, encodeEntry p.2)))

/-- Reading the entries of a cache object back; JSON object keys are
strings, so every loaded key is a `some`. -/
def decodeEntries : List (String × Json) → Option Cache
  | [] => some []
  | (k, j) :: rest => do
    let e ← decodeEntry j
    let r ← decodeEntries rest
    some ((some k, e) :: r)

/-- Reading a whole cache file back into the structured view. -/
def decodeCache : Json → Option Cache
  | Json.obj fields => decodeEntries fields
  | _ => none

/-- All three preflight checks of `export_tasks` pass. -/
def Preflight (env : Env) : Prop :=
  env.config_valid = true ∧ env.access_granted = true ∧ env.calendar_ready = true

/-- A target on which every create saves and every update succeeds. -/
def SuccessfulTarget (tgt : Target) : Prop :=
  (∀ td, (tgt.create td).isOk = true) ∧ (∀ eid td, tgt.update eid td = true)

/-- The record is filtered out by the eligibility or skip-completed policy
(the two `continue` branches at `apple_calendar.py`, lines 410-416). -/
def PolicySkip (cfg : Config) (task : NotionPage) : Prop :=
  strTruthy (extractTaskData task).due_start = false ∨
  (cfg.skip_completed && ((extractTaskData task).status == some doneStatus)) = true

/-- The record is eligible: it survives both policy filters. -/
def Eligible (cfg : Config) (task : NotionPage) : Prop :=
  strTruthy (extractTaskData task).due_start = true ∧
  (cfg.skip_completed && ((extractTaskData task).status == some doneStatus)) = false

/-- The loop takes the creation branch for this key: no cached external id,
or a falsy one, or the cached event no longer resolves. -/
def CreateBranchTaken (tgt : Target) (c : Cache) (k : Key) : Prop :=
  ExportCache.getExternalId c k = none ∨
  ∃ eid, ExportCache.getExternalId c k = some eid ∧
    (eid = "" ∨ tgt.fetch eid = false)

/-- The loop takes the update branch for this key with event `eid`. -/
def UpdateBranchTaken (tgt : Target) (c : Cache) (k : Key) (eid : String) : Prop :=
  ExportCache.getExternalId c k = some eid ∧ eid ≠ "" ∧ tgt.fetch eid = true

/-- Sample page used by concrete witnesses (the §8 scenario record). -/
def samplePage : NotionPage :=
  { id := some ("t1"),
    properties :=
      { task_name := { title := [{ plain_text := some ("Write report") }] },
        due := { date := some { start := some ("2025-01-10"), stop := none } },
        status := { status := some { name := some ("Not started") } },
        assign := { people := [] } },
    created_time := none, last_edited_time := none, url := none }

/-- Sample page without any title parts. -/
def untitledPage : NotionPage :=
  { id := some ("t2"),
    properties :=
      { task_name := { title := [] },
        due := { date := none },
        status := { status := none },
        assign := { people := [] } },
    created_time := none, last_edited_time := none, url := none }

/-- Target on which every operation succeeds. -/
def sampleTarget : Target :=
  { create := fun _ => CreateOutcome.ok ("E1"),
    fetch := fun _ => true,
    update := fun _ _ => true }

/-- Target whose create and update calls fail (without raising). -/
def failTarget : Target :=
  { create := fun _ => CreateOutcome.failed,
    fetch := fun _ => true,
    update := fun _ _ => false }

/-- Target whose create call raises an exception. -/
def raiseTarget : Target :=
  { create := fun _ => CreateOutcome.raises ("boom"),
    fetch := fun _ => false,
    update := fun _ _ => false }

/-- Environment in which all preflight checks pass. -/
def envOk : Env :=
  { config_valid := true, access_granted := true, calendar_ready := true }

/-- Environment in which configuration validation fails. -/
def envBadConfig : Env :=
  { config_valid := false, access_granted := true, calendar_ready := true }

/-- The default configuration (`skip_completed` defaults to `True`). -/
def cfgDefault : Config := { skip_completed := true }

/-- Timestamp constant used by concrete witnesses. -/
def sampleNow : String := "2025-01-11T00:00:00"

/-- The initial result dictionary of `export_tasks`. -/
def emptyResult : BatchResult :=
  { success := false, created := 0, updated := 0, skipped := 0, errors := [] }

/-- Equality on exactly the watched field set of `has_changes`. -/
def WatchedEq (a b : TaskData) : Bool :=
  (a.title == b.title) && (a.due_start == b.due_start) &&
  (a.due_end == b.due_end) && (a.status == b.status)

/-- After a run, a record is in sync: either the policy filters it out, or
the cache snapshot for its id agrees with it on every watched field. -/
def Synced (cfg : Config) (c : Cache) (task : NotionPage) : Prop :=
  PolicySkip cfg task ∨
  ∃ e, ExportCache.getEntry c task.id = some e ∧
    WatchedEq (extractTaskData task) e.task_data = true

/-- Total number of classifications a result has handed out: bucket counts
plus error messages. -/
def resMeasure (r : BatchResult) : Nat :=
  r.created + r.updated + r.skipped + r.errors.length

/-- Sum of the three bucket counts alone. -/
def buckets (r : BatchResult) : Nat :=
  r.created + r.updated + r.skipped

/-- An outdated snapshot of the sample record (different title). -/
def sampleOldData : TaskData :=
  { id := some ("t1"), title := "Old title", due_start := some ("2025-01-01"),
    due_end := none, status := some ("Not started"), assignees := [],
    created_time := none, last_edited_time := none, url := none }

/-- A cache whose entry for the sample record carries a dead external
reference. -/
def staleCache : Cache :=
  [(some ("t1"),
    { external_id := "DEAD", task_data := sampleOldData,
      exporter_type := exporterName, last_synced := "2025-01-09T00:00:00" })]

/-- Target on which the cached event id no longer resolves but creation
succeeds with a fresh id. -/
def staleTarget : Target :=
  { create := fun _ => CreateOutcome.ok ("E2"),
    fetch := fun _ => false,
    update := fun _ _ => true }

/-! ## Helper lemmas -/

theorem createEvent_ok_inv (cfg : Config) (tgt : Target) (td : TaskData)
    (nid : String) (h : createEvent cfg tgt td = Except.ok (some nid)) :
    tgt.create td = CreateOutcome.ok nid := by
  unfold createEvent at h
  split at h
  · exact absurd h (by simp)
  · split at h
    · exact absurd h (by simp)
    · cases tmp : tgt.create td <;> rw [tmp] at h <;> simp_all

theorem CreateOutcome.isOk_iff (o : CreateOutcome) :
    o.isOk = true ↔ ∃ eid, o = CreateOutcome.ok eid := by
  cases o <;> simp [CreateOutcome.isOk]

theorem WatchedEq_refl (a : TaskData) : WatchedEq a a = true := by
  simp [WatchedEq]

theorem processTask_policy_skip (cfg : Config) (tgt : Target) (now : String)
    (c : Cache) (r : BatchResult) (task : NotionPage) (h : PolicySkip cfg task) :
    processTask cfg tgt now (c, r) task = (c, incSkipped r) := by
  rcases h with h | h
  · simp [processTask, processTaskFS, fsOk, h]
  · by_cases h1 : strTruthy (extractTaskData task).due_start = false
    · simp [processTask, processTaskFS, fsOk, h1]
    · simp [processTask, processTaskFS, fsOk, h1, h]

theorem hasChanges_false_iff (c : Cache) (k : Key) (td : TaskData) :
    ExportCache.hasChanges c k td = false ↔
      ∃ e, ExportCache.getEntry c k = some e ∧ WatchedEq td e.task_data = true := by
  unfold ExportCache.hasChanges
  cases h : ExportCache.getEntry c k with
  | none => simp
  | some e => simp [WatchedEq]

theorem processTask_no_changes (cfg : Config) (tgt : Target) (now : String)
    (c : Cache) (r : BatchResult) (task : NotionPage)
    (h1 : Eligible cfg task)
    (h2 : ExportCache.hasChanges c task.id (extractTaskData task) = false) :
    processTask cfg tgt now (c, r) task = (c, incSkipped r) := by
  obtain ⟨e1, e2⟩ := h1
  simp [processTask, processTaskFS, fsOk, e1, e2, h2]

theorem processTask_create_branch_outcome (cfg : Config) (tgt : Target) (now : String)
    (c : Cache) (r : BatchResult) (task : NotionPage)
    (h1 : Eligible cfg task)
    (h2 : ExportCache.hasChanges c task.id (extractTaskData task) = true)
    (h3 : CreateBranchTaken tgt c task.id) :
    processTask cfg tgt now (c, r) task =
      (match tgt.create (extractTaskData task) with
      | CreateOutcome.ok nid =>
        (ExportCache.setEntry c task.id nid (extractTaskData task) exporterName now,
         incCreated r)
      | CreateOutcome.failed => (c, incSkipped r)
      | CreateOutcome.raises m => (c, addError r (errMsg task m))) := by
  obtain ⟨e1, e2⟩ := h1
  rcases h3 with h3 | ⟨eid, h3, h4⟩
  · cases tmp : tgt.create (extractTaskData task) <;>
      simp [processTask, processTaskFS, fsOk, e1, e2, h2, h3, createEvent, tmp]
  · rcases h4 with h4 | h4
    · subst h4
      cases tmp : tgt.create (extractTaskData task) <;>
        simp [processTask, processTaskFS, fsOk, e1, e2, h2, h3, createEvent, tmp]
    · by_cases h5 : eid = ""
      · subst h5
        cases tmp : tgt.create (extractTaskData task) <;>
          simp [processTask, processTaskFS, fsOk, e1, e2, h2, h3, createEvent, tmp]
      · cases tmp : tgt.create (extractTaskData task) <;>
          simp [processTask, processTaskFS, fsOk, e1, e2, h2, h3, h4, h5, createEvent, tmp]

theorem processTask_create_ok (cfg : Config) (tgt : Target) (now : String)
    (c : Cache) (r : BatchResult) (task : NotionPage) (nid : String)
    (h1 : Eligible cfg task)
    (h2 : ExportCache.hasChanges c task.id (extractTaskData task) = true)
    (h3 : CreateBranchTaken tgt c task.id)
    (h4 : tgt.create (extractTaskData task) = CreateOutcome.ok nid) :
    processTask cfg tgt now (c, r) task =
      (ExportCache.setEntry c task.id nid (extractTaskData task) exporterName now,
       incCreated r) := by
  rw [processTask_create_branch_outcome cfg tgt now c r task h1 h2 h3, h4]

theorem processTask_create_failed (cfg : Config) (tgt : Target) (now : String)
    (c : Cache) (r : BatchResult) (task : NotionPage)
    (h1 : Eligible cfg task)
    (h2 : ExportCache.hasChanges c task.id (extractTaskData task) = true)
    (h3 : CreateBranchTaken tgt c task.id)
    (h4 : tgt.create (extractTaskData task) = CreateOutcome.failed) :
    processTask cfg tgt now (c, r) task = (c, incSkipped r) := by
  rw [processTask_create_branch_outcome cfg tgt now c r task h1 h2 h3, h4]

theorem processTask_create_raises (cfg : Config) (tgt : Target) (now : String)
    (c : Cache) (r : BatchResult) (task : NotionPage) (m : String)
    (h1 : Eligible cfg task)
    (h2 : ExportCache.hasChanges c task.id (extractTaskData task) = true)
    (h3 : CreateBranchTaken tgt c task.id)
    (h4 : tgt.create (extractTaskData task) = CreateOutcome.raises m) :
    processTask cfg tgt now (c, r) task = (c, addError r (errMsg task m)) := by
  rw [processTask_create_branch_outcome cfg tgt now c r task h1 h2 h3, h4]

theorem processTask_update_ok (cfg : Config) (tgt : Target) (now : String)
    (c : Cache) (r : BatchResult) (task : NotionPage) (eid : String)
    (h1 : Eligible cfg task)
    (h2 : ExportCache.hasChanges c task.id (extractTaskData task) = true)
    (h3 : UpdateBranchTaken tgt c task.id eid)
    (h4 : tgt.update eid (extractTaskData task) = true) :
    processTask cfg tgt now (c, r) task =
      (ExportCache.setEntry c task.id eid (extractTaskData task) exporterName now,
       incUpdated r) := by
  obtain ⟨e1, e2⟩ := h1
  obtain ⟨g1, g2, g3⟩ := h3
  simp [processTask, processTaskFS, fsOk, e1, e2, h2, g1, g2, g3, h4]

theorem processTask_update_failed (cfg : Config) (tgt : Target) (now : String)
    (c : Cache) (r : BatchResult) (task : NotionPage) (eid : String)
    (h1 : Eligible cfg task)
    (h2 : ExportCache.hasChanges c task.id (extractTaskData task) = true)
    (h3 : UpdateBranchTaken tgt c task.id eid)
    (h4 : tgt.update eid (extractTaskData task) = false) :
    processTask cfg tgt now (c, r) task = (c, incSkipped r) := by
  obtain ⟨e1, e2⟩ := h1
  obtain ⟨g1, g2, g3⟩ := h3
  simp [processTask, processTaskFS, fsOk, e1, e2, h2, g1, g2, g3, h4]

theorem exportLoop_cons (cfg : Config) (tgt : Target) (now : String)
    (st : Cache × BatchResult) (t : NotionPage) (rest : List NotionPage) :
    exportLoop cfg tgt now st (t :: rest) =
      exportLoop cfg tgt now (processTask cfg tgt now st t) rest := rfl

/-- Any cache mutation performed by one loop iteration writes the entry of
the processed task under its own key, with an external id that just came
from a successful create or a successful update. -/
theorem processTask_cache_provenance (cfg : Config) (tgt : Target) (now : String)
    (c : Cache) (r : BatchResult) (task : NotionPage) :
    (processTask cfg tgt now (c, r) task).1 = c ∨
    ∃ eid, (processTask cfg tgt now (c, r) task).1 =
        Cache.set c task.id
          { external_id := eid, task_data := extractTaskData task,
            exporter_type := exporterName, last_synced := now } ∧
      (tgt.create (extractTaskData task) = CreateOutcome.ok eid ∨
       tgt.update eid (extractTaskData task) = true) := by
  unfold processTask processTaskFS fsOk
  dsimp only
  split
  · exact Or.inl rfl
  split
  · exact Or.inl rfl
  split
  · split
    · split
      · -- cached external id is the empty string: creation branch
        split
        next nid heq =>
          exact Or.inr ⟨nid, rfl, Or.inl (createEvent_ok_inv _ _ _ _ heq)⟩
        next => exact Or.inl rfl
        next => exact Or.inl rfl
      · split
        · split
          next hu => exact Or.inr ⟨_, rfl, Or.inr hu⟩
          next => exact Or.inl rfl
        · split
          next nid heq =>
            exact Or.inr ⟨nid, rfl, Or.inl (createEvent_ok_inv _ _ _ _ heq)⟩
          next => exact Or.inl rfl
          next => exact Or.inl rfl
    · split
      next nid heq =>
        exact Or.inr ⟨nid, rfl, Or.inl (createEvent_ok_inv _ _ _ _ heq)⟩
      next => exact Or.inl rfl
      next => exact Or.inl rfl
  · exact Or.inl rfl

theorem Cache.get_set (c : Cache) (k : Key) (e : CacheEntry) (k2 : Key) :
    Cache.get (Cache.set c k e) k2 = if k = k2 then some e else Cache.get c k2 := by
  induction c with
  | nil => simp [Cache.get, Cache.set]
  | cons p rest ih =>
    obtain ⟨k1, e1⟩ := p
    by_cases h1 : k1 = k
    · subst h1
      by_cases h2 : k1 = k2 <;> simp [Cache.set, Cache.get, h2]
    · simp only [Cache.set, if_neg h1, Cache.get]
      by_cases h2 : k1 = k2
      · subst h2
        have hne : ¬ k = k1 := fun h => h1 h.symm
        simp [if_neg hne, Cache.get]
      · simp [if_neg h2, ih]

theorem getEntry_setEntry_self (c : Cache) (k : Key) (eid : String)
    (td : TaskData) (et now : String) :
    ExportCache.getEntry (ExportCache.setEntry c k eid td et now) k =
      some { external_id := eid, task_data := td,
             exporter_type := et, last_synced := now } := by
  unfold ExportCache.getEntry ExportCache.setEntry
  rw [Cache.get_set, if_pos rfl]

theorem getEntry_setEntry_other (c : Cache) (k k2 : Key) (eid : String)
    (td : TaskData) (et now : String) (h : k ≠ k2) :
    ExportCache.getEntry (ExportCache.setEntry c k eid td et now) k2 =
      ExportCache.getEntry c k2 := by
  unfold ExportCache.getEntry ExportCache.setEntry
  rw [Cache.get_set, if_neg h]

/-- A loop run leaves every key that is not the id of one of its tasks
untouched. -/
theorem exportLoop_get_untouched (cfg : Config) (tgt : Target) (now : String) :
    ∀ (tasks : List NotionPage) (st : Cache × BatchResult) (k : Key),
    (∀ t ∈ tasks, t.id ≠ k) →
    Cache.get (exportLoop cfg tgt now st tasks).1 k = Cache.get st.1 k := by
  intro tasks
  induction tasks with
  | nil => intro st k _; rfl
  | cons t rest ih =>
    intro st k h
    obtain ⟨c, r⟩ := st
    rw [exportLoop_cons]
    have hrest : ∀ u ∈ rest, u.id ≠ k := fun u hu => h u (List.mem_cons_of_mem t hu)
    rw [ih (processTask cfg tgt now (c, r) t) k hrest]
    rcases processTask_cache_provenance cfg tgt now c r t with hc | ⟨eid, hc, _⟩
    · rw [hc]
    · rw [hc, Cache.get_set, if_neg (h t (List.mem_cons_self t rest))]

theorem processTask_measure (cfg : Config) (tgt : Target) (now : String)
    (c : Cache) (r : BatchResult) (task : NotionPage) :
    resMeasure (processTask cfg tgt now (c, r) task).2 = resMeasure r + 1 := by
  unfold processTask processTaskFS fsOk
  dsimp only
  repeat' split
  all_goals
    simp only [resMeasure, incCreated, incUpdated, incSkipped, addError,
      List.length_append, List.length_cons, List.length_nil]
  all_goals omega

theorem exportLoop_measure (cfg : Config) (tgt : Target) (now : String) :
    ∀ (tasks : List NotionPage) (st : Cache × BatchResult),
    resMeasure (exportLoop cfg tgt now st tasks).2 =
      resMeasure st.2 + tasks.length := by
  intro tasks
  induction tasks with
  | nil => intro st; rfl
  | cons t rest ih =>
    intro st
    obtain ⟨c, r⟩ := st
    rw [exportLoop_cons, ih]
    have := processTask_measure cfg tgt now c r t
    simp only [List.length_cons]
    omega

theorem exportLoopFS_cons (cfg : Config) (tgt : Target) (fs : FileSys)
    (now : String) (st : Cache × BatchResult) (t : NotionPage)
    (rest : List NotionPage) :
    exportLoopFS cfg tgt fs now st (t :: rest) =
      exportLoopFS cfg tgt fs now (processTaskFS cfg tgt fs now st t) rest := rfl

/-- On any filesystem, one loop iteration hands out at least one
classification (a bucket or an error); it hands out two exactly when the
persist raises after a successful sync (bucket plus error). -/
theorem processTaskFS_measure_ge (cfg : Config) (tgt : Target) (fs : FileSys)
    (now : String) (c : Cache) (r : BatchResult) (task : NotionPage) :
    resMeasure r + 1 ≤ resMeasure (processTaskFS cfg tgt fs now (c, r) task).2 := by
  unfold processTaskFS
  dsimp only
  repeat' split
  all_goals
    simp only [resMeasure, incCreated, incUpdated, incSkipped, addError,
      List.length_append, List.length_cons, List.length_nil]
  all_goals omega

/-- On any filesystem, one loop iteration increments at most one bucket. -/
theorem processTaskFS_buckets_le (cfg : Config) (tgt : Target) (fs : FileSys)
    (now : String) (c : Cache) (r : BatchResult) (task : NotionPage) :
    buckets (processTaskFS cfg tgt fs now (c, r) task).2 ≤ buckets r + 1 := by
  unfold processTaskFS
  dsimp only
  repeat' split
  all_goals
    simp only [buckets, incCreated, incUpdated, incSkipped, addError]
  all_goals omega

theorem exportLoopFS_measure_ge (cfg : Config) (tgt : Target) (fs : FileSys)
    (now : String) :
    ∀ (tasks : List NotionPage) (st : Cache × BatchResult),
    resMeasure st.2 + tasks.length ≤
      resMeasure (exportLoopFS cfg tgt fs now st tasks).2 := by
  intro tasks
  induction tasks with
  | nil => intro st; simp [exportLoopFS]
  | cons t rest ih =>
    intro st
    obtain ⟨c, r⟩ := st
    rw [exportLoopFS_cons]
    have h1 := processTaskFS_measure_ge cfg tgt fs now c r t
    have h2 := ih (processTaskFS cfg tgt fs now (c, r) t)
    simp only [List.length_cons]
    omega

theorem exportLoopFS_buckets_le (cfg : Config) (tgt : Target) (fs : FileSys)
    (now : String) :
    ∀ (tasks : List NotionPage) (st : Cache × BatchResult),
    buckets (exportLoopFS cfg tgt fs now st tasks).2 ≤
      buckets st.2 + tasks.length := by
  intro tasks
  induction tasks with
  | nil => intro st; simp [exportLoopFS]
  | cons t rest ih =>
    intro st
    obtain ⟨c, r⟩ := st
    rw [exportLoopFS_cons]
    have h1 := processTaskFS_buckets_le cfg tgt fs now c r t
    have h2 := ih (processTaskFS cfg tgt fs now (c, r) t)
    simp only [List.length_cons]
    omega

/-- After a run with an always-successful target over tasks with pairwise
distinct ids, every task of the run is in sync with the final cache. -/
theorem exportLoop_establishes_synced (cfg : Config) (tgt : Target) (now : String)
    (hsucc : SuccessfulTarget tgt) :
    ∀ (tasks : List NotionPage) (st : Cache × BatchResult),
    (tasks.map (fun t => t.id)).Nodup →
    ∀ t ∈ tasks, Synced cfg (exportLoop cfg tgt now st tasks).1 t := by
  intro tasks
  induction tasks with
  | nil => intro st _ t ht; cases ht
  | cons t rest ih =>
    intro st hnodup u hu
    obtain ⟨c, r⟩ := st
    rw [List.map_cons, List.nodup_cons] at hnodup
    obtain ⟨hnotin, hnodup_rest⟩ := hnodup
    rw [exportLoop_cons]
    rw [List.mem_cons] at hu
    rcases hu with rfl | hu
    · -- the head task itself: settle its state after its own step, then
      -- show the rest of the loop leaves its key alone
      have hkey : ∀ v ∈ rest, v.id ≠ u.id := by
        intro v hv hvk
        exact hnotin (hvk ▸ List.mem_map_of_mem (fun w => w.id) hv)
      by_cases hpol : PolicySkip cfg u
      · exact Or.inl hpol
      · have helig : Eligible cfg u := by
          unfold PolicySkip at hpol
          push_neg at hpol
          refine ⟨?_, ?_⟩
          · cases hx : strTruthy (extractTaskData u).due_start
            · exact absurd hx hpol.1
            · rfl
          · cases hx : (cfg.skip_completed &&
                ((extractTaskData u).status == some doneStatus))
            · rfl
            · exact absurd hx hpol.2
        -- the entry for the head key after the head step
        have hstep : ∃ e,
            ExportCache.getEntry (processTask cfg tgt now (c, r) u).1 u.id = some e ∧
            WatchedEq (extractTaskData u) e.task_data = true := by
          by_cases hch : ExportCache.hasChanges c u.id (extractTaskData u) = true
          · -- changed: every branch under a successful target writes the
            -- fresh snapshot under the head key
            have hcreate : CreateBranchTaken tgt c u.id →
                ∃ e, ExportCache.getEntry (processTask cfg tgt now (c, r) u).1 u.id =
                    some e ∧
                  WatchedEq (extractTaskData u) e.task_data = true := by
              intro hbr
              obtain ⟨eid0, hok⟩ :=
                (CreateOutcome.isOk_iff _).mp (hsucc.1 (extractTaskData u))
              rw [processTask_create_ok cfg tgt now c r u eid0 helig hch hbr hok]
              exact ⟨_, getEntry_setEntry_self c u.id eid0 (extractTaskData u)
                exporterName now, WatchedEq_refl _⟩
            cases hget : ExportCache.getExternalId c u.id with
            | none => exact hcreate (Or.inl hget)
            | some eid =>
              by_cases hemp : eid = ""
              · exact hcreate (Or.inr ⟨eid, hget, Or.inl hemp⟩)
              · cases hf : tgt.fetch eid with
                | false => exact hcreate (Or.inr ⟨eid, hget, Or.inr hf⟩)
                | true =>
                  rw [processTask_update_ok cfg tgt now c r u eid helig hch
                    ⟨hget, hemp, hf⟩ (hsucc.2 eid (extractTaskData u))]
                  exact ⟨_, getEntry_setEntry_self c u.id eid (extractTaskData u)
                    exporterName now, WatchedEq_refl _⟩
          · -- unchanged: the cache is left alone and already agrees
            have hch2 : ExportCache.hasChanges c u.id (extractTaskData u) = false := by
              cases hx : ExportCache.hasChanges c u.id (extractTaskData u)
              · rfl
              · exact absurd hx hch
            obtain ⟨e, he, hw⟩ :=
              (hasChanges_false_iff c u.id (extractTaskData u)).mp hch2
            rw [processTask_no_changes cfg tgt now c r u helig hch2]
            exact ⟨e, he, hw⟩
        obtain ⟨e, he, hw⟩ := hstep
        refine Or.inr ⟨e, ?_, hw⟩
        unfold ExportCache.getEntry
        rw [exportLoop_get_untouched cfg tgt now rest
          (processTask cfg tgt now (c, r) u) u.id hkey]
        exact he
    · exact ih (processTask cfg tgt now (c, r) t) hnodup_rest u hu

theorem eligible_of_not_policySkip (cfg : Config) (task : NotionPage)
    (h : ¬ PolicySkip cfg task) : Eligible cfg task := by
  unfold PolicySkip at h
  push_neg at h
  refine ⟨?_, ?_⟩
  · cases hx : strTruthy (extractTaskData task).due_start
    · exact absurd hx h.1
    · rfl
  · cases hx : (cfg.skip_completed &&
        ((extractTaskData task).status == some doneStatus))
    · rfl
    · exact absurd hx h.2

/-- A loop run over records that are all already in sync touches nothing:
the cache comes back unchanged and every record is counted as skipped. -/
theorem exportLoop_all_synced (cfg : Config) (tgt : Target) (now : String) :
    ∀ (tasks : List NotionPage) (c : Cache) (r : BatchResult),
    (∀ t ∈ tasks, Synced cfg c t) →
    exportLoop cfg tgt now (c, r) tasks =
      (c, { r with skipped := r.skipped + tasks.length }) := by
  intro tasks
  induction tasks with
  | nil => intro c r _; simp [exportLoop, exportLoopFS]
  | cons t rest ih =>
    intro c r hall
    rw [exportLoop_cons]
    have hstep : processTask cfg tgt now (c, r) t = (c, incSkipped r) := by
      rcases hall t (List.mem_cons_self t rest) with hpol | ⟨e, he, hw⟩
      · exact processTask_policy_skip cfg tgt now c r t hpol
      · by_cases hpol2 : PolicySkip cfg t
        · exact processTask_policy_skip cfg tgt now c r t hpol2
        · exact processTask_no_changes cfg tgt now c r t
            (eligible_of_not_policySkip cfg t hpol2)
            ((hasChanges_false_iff c t.id (extractTaskData t)).mpr ⟨e, he, hw⟩)
    rw [hstep, ih c (incSkipped r) (fun v hv => hall v (List.mem_cons_of_mem t hv))]
    have harith : r.skipped + 1 + rest.length = r.skipped + (t :: rest).length := by
      simp [List.length_cons]
      omega
    simp only [incSkipped]
    rw [harith]

/-- Any difference between the cache before and after a full loop is an
entry written for one of the processed tasks, carrying an external id that
came out of a successful create or a successful update of that task. -/
theorem exportLoop_provenance (cfg : Config) (tgt : Target) (now : String) :
    ∀ (tasks : List NotionPage) (c : Cache) (r : BatchResult) (k : Key),
    Cache.get (exportLoop cfg tgt now (c, r) tasks).1 k ≠ Cache.get c k →
    ∃ t ∈ tasks, t.id = k ∧ ∃ eid,
      Cache.get (exportLoop cfg tgt now (c, r) tasks).1 k =
        some { external_id := eid, task_data := extractTaskData t,
               exporter_type := exporterName, last_synced := now } ∧
      (tgt.create (extractTaskData t) = CreateOutcome.ok eid ∨
       tgt.update eid (extractTaskData t) = true) := by
  intro tasks
  induction tasks with
  | nil => intro c r k h; exact absurd rfl h
  | cons t rest ih =>
    intro c r k h
    rcases hpt : processTask cfg tgt now (c, r) t with ⟨c1, r1⟩
    rw [exportLoop_cons, hpt] at h ⊢
    by_cases hmid : Cache.get (exportLoop cfg tgt now (c1, r1) rest).1 k =
        Cache.get c1 k
    · -- the head step is what changed this key
      have hck : Cache.get c1 k ≠ Cache.get c k := by
        rw [← hmid]
        exact h
      rcases processTask_cache_provenance cfg tgt now c r t with hc | ⟨eid, hc, hsuc⟩
      · rw [hpt] at hc
        have hc1 : c1 = c := hc
        exact absurd (by rw [hc1]) hck
      · rw [hpt] at hc
        have hc1 : c1 = Cache.set c t.id
            { external_id := eid, task_data := extractTaskData t,
              exporter_type := exporterName, last_synced := now } := hc
        have hkid : t.id = k := by
          by_contra hne
          rw [hc1, Cache.get_set, if_neg hne] at hck
          exact hck rfl
        refine ⟨t, List.mem_cons_self t rest, hkid, eid, ?_, hsuc⟩
        rw [hmid, hc1, Cache.get_set, if_pos hkid]
    · obtain ⟨t2, ht2, hid, eid, hget, hsuc⟩ := ih c1 r1 k hmid
      exact ⟨t2, List.mem_cons_of_mem t ht2, hid, eid, hget, hsuc⟩

theorem decodeOptStr_encodeOptStr (o : Option String) :
    decodeOptStr (encodeOptStr o) = some o := by
  cases o <;> rfl

theorem decodeStrList_encodeStrList (l : List String) :
    decodeStrList (l.map Json.str) = some l := by
  induction l with
  | nil => rfl
  | cons s rest ih => simp [decodeStrList, ih]

theorem decodeTaskData_encodeTaskData (td : TaskData) :
    decodeTaskData (encodeTaskData td) = some td := by
  simp [decodeTaskData, encodeTaskData, encodeStrList,
    decodeOptStr_encodeOptStr, decodeStrList_encodeStrList]

theorem decodeEntry_encodeEntry (e : CacheEntry) :
    decodeEntry (encodeEntry e) = some e := by
  simp [decodeEntry, encodeEntry, decodeTaskData_encodeTaskData]

/-- Claim C1: has_changes(id, candidate) is true exactly when no cache
entry exists for the id, or one of the watched fields {title, due_start,
due_end, status} differs by exact equality between the candidate and the
cached snapshot; and its value depends on no field outside the watched
set (two candidates agreeing on the watched fields get the same answer,
whatever their assignees, url or timestamps). -/
theorem hasChanges_watched_fields_iff (c : Cache) (k : Key) (td td2 : TaskData) :
    (ExportCache.hasChanges c k td = true ↔
      (ExportCache.getEntry c k = none ∨
       ∃ e, ExportCache.getEntry c k = some e ∧
         (td.title ≠ e.task_data.title ∨ td.due_start ≠ e.task_data.due_start ∨
          td.due_end ≠ e.task_data.due_end ∨ td.status ≠ e.task_data.status))) ∧
    (td.title = td2.title → td.due_start = td2.due_start →
      td.due_end = td2.due_end → td.status = td2.status →
      ExportCache.hasChanges c k td = ExportCache.hasChanges c k td2) := by
  constructor
  · unfold ExportCache.hasChanges
    cases h : ExportCache.getEntry c k with
    | none => simp
    | some e => simp [bne_iff_ne, or_assoc]
  · intro h1 h2 h3 h4
    unfold ExportCache.hasChanges
    rw [h1, h2, h3, h4]

/-- Witness for C1 at a concrete input: an id absent from the empty cache
reports changes. -/
theorem hasChanges_watched_fields_iff_witness :
    ExportCache.hasChanges [] (some ("t1")) (extractTaskData samplePage) = true :=
  (hasChanges_watched_fields_iff [] (some ("t1")) (extractTaskData samplePage)
    (extractTaskData samplePage)).1.mpr (Or.inl rfl)

/-- Claim C6: a record with no (truthy) due_start, or one matching the
enabled skip-completed policy, is classified skipped immediately: the
returned cache is the input cache unchanged (for every cache state and
every target, so no adapter call or cache content can influence the
outcome), and only the skipped counter is incremented. -/
theorem policy_skip_short_circuits (cfg : Config) (tgt : Target) (now : String)
    (c : Cache) (r : BatchResult) (task : NotionPage) (h : PolicySkip cfg task) :
    processTask cfg tgt now (c, r) task = (c, incSkipped r) := by
  rcases h with h | h
  · simp [processTask, processTaskFS, fsOk, h]
  · by_cases h1 : strTruthy (extractTaskData task).due_start = false
    · simp [processTask, processTaskFS, fsOk, h1]
    · simp [processTask, processTaskFS, fsOk, h1, h]

/-- Witness for C6: a completed task under the default configuration is
skipped with the cache untouched. -/
theorem policy_skip_short_circuits_witness :
    PolicySkip cfgDefault untitledPage ∧
    processTask cfgDefault sampleTarget sampleNow ([], emptyResult) untitledPage =
      ([], incSkipped emptyResult) :=
  ⟨Or.inl (by decide),
   policy_skip_short_circuits cfgDefault sampleTarget sampleNow [] _ untitledPage
     (Or.inl (by decide))⟩

/-- Claim C10: `extract_task_data` always yields the full nine-field
record (structurally guaranteed by the return type `TaskData`), its title
is never the empty string, and a page whose title property is absent or
has no text parts gets the literal title "Untitled". -/
theorem extract_title_never_empty (task : NotionPage) :
    (extractTaskData task).title ≠ "" ∧
    (task.properties.task_name.title = [] →
      (extractTaskData task).title = "Untitled") := by
  unfold extractTaskData
  by_cases hj :
      String.join (task.properties.task_name.title.map
        (fun part => part.plain_text.getD (""))) = ""
  · simp only [hj, if_pos rfl]
    exact ⟨by decide, fun _ => rfl⟩
  · simp only [if_neg hj]
    refine ⟨hj, fun h => ?_⟩
    rw [h] at hj
    exact absurd rfl hj

/-- Witness for C10: the empty-title page gets "Untitled". -/
theorem extract_title_never_empty_witness :
    (extractTaskData untitledPage).title = "Untitled" :=
  (extract_title_never_empty untitledPage).2 rfl

/-- Counterexample for C2: with a failing preflight check (configuration
validation fails) and one input record, the three bucket counts sum to 0,
not to the number of input records, refuting the claim as stated. -/
theorem batch_counts_cex :
    ¬ ((exportTasks cfgDefault envBadConfig sampleTarget sampleNow [] [samplePage]).2.created +
       (exportTasks cfgDefault envBadConfig sampleTarget sampleNow [] [samplePage]).2.updated +
       (exportTasks cfgDefault envBadConfig sampleTarget sampleNow [] [samplePage]).2.skipped =
       ([samplePage] : List NotionPage).length) := by
  decide

/-- Claim C2 as amended: success is true iff the errors list is empty (in
every case, on every filesystem, preflight failures included).  When the
preflight checks pass, each record contributes exactly one bucket
increment, or one error message (a create call raising before
classification), or one bucket plus one error (the cache persist raising
after a successful create or update, since the bucket increment and the
in-memory write precede the save and its mkdir sits outside the guarded
region); hence the bucket counts sum to at most the number of input
records, the bucket counts plus the error count sum to at least that
number, and when no persist call raises the bucket counts plus the error
count equal it exactly.  When a preflight check fails, all counts are
zero and there is exactly one error. -/
theorem batch_result_contract (cfg : Config) (env : Env) (tgt : Target)
    (fs : FileSys) (now : String) (c : Cache) (tasks : List NotionPage) :
    ((exportTasksFS cfg env tgt fs now c tasks).2.success = true ↔
      (exportTasksFS cfg env tgt fs now c tasks).2.errors = []) ∧
    (Preflight env →
      (exportTasksFS cfg env tgt fs now c tasks).2.created +
      (exportTasksFS cfg env tgt fs now c tasks).2.updated +
      (exportTasksFS cfg env tgt fs now c tasks).2.skipped ≤ tasks.length ∧
      tasks.length ≤
        (exportTasksFS cfg env tgt fs now c tasks).2.created +
        (exportTasksFS cfg env tgt fs now c tasks).2.updated +
        (exportTasksFS cfg env tgt fs now c tasks).2.skipped +
        (exportTasksFS cfg env tgt fs now c tasks).2.errors.length) ∧
    (Preflight env →
      (exportTasks cfg env tgt now c tasks).2.created +
      (exportTasks cfg env tgt now c tasks).2.updated +
      (exportTasks cfg env tgt now c tasks).2.skipped +
      (exportTasks cfg env tgt now c tasks).2.errors.length = tasks.length) ∧
    (¬ Preflight env →
      (exportTasksFS cfg env tgt fs now c tasks).2.created = 0 ∧
      (exportTasksFS cfg env tgt fs now c tasks).2.updated = 0 ∧
      (exportTasksFS cfg env tgt fs now c tasks).2.skipped = 0 ∧
      (exportTasksFS cfg env tgt fs now c tasks).2.errors.length = 1) := by
  cases p1 : env.config_valid with
  | false =>
    refine ⟨?_, ?_, ?_, ?_⟩
    · simp [exportTasksFS, p1, addError]
    · intro hpre
      obtain ⟨q1, _, _⟩ := hpre
      rw [p1] at q1
      simp at q1
    · intro hpre
      obtain ⟨q1, _, _⟩ := hpre
      rw [p1] at q1
      simp at q1
    · intro _
      simp [exportTasksFS, p1, addError]
  | true =>
    cases p2 : env.access_granted with
    | false =>
      refine ⟨?_, ?_, ?_, ?_⟩
      · simp [exportTasksFS, p1, p2, addError]
      · intro hpre
        obtain ⟨_, q2, _⟩ := hpre
        rw [p2] at q2
        simp at q2
      · intro hpre
        obtain ⟨_, q2, _⟩ := hpre
        rw [p2] at q2
        simp at q2
      · intro _
        simp [exportTasksFS, p1, p2, addError]
    | true =>
      cases p3 : env.calendar_ready with
      | false =>
        refine ⟨?_, ?_, ?_, ?_⟩
        · simp [exportTasksFS, p1, p2, p3, addError]
        · intro hpre
          obtain ⟨_, _, q3⟩ := hpre
          rw [p3] at q3
          simp at q3
        · intro hpre
          obtain ⟨_, _, q3⟩ := hpre
          rw [p3] at q3
          simp at q3
        · intro _
          simp [exportTasksFS, p1, p2, p3, addError]
      | true =>
        refine ⟨?_, ?_, ?_, ?_⟩
        · simp [exportTasksFS, p1, p2, p3, List.isEmpty_iff]
        · intro _
          have hb := exportLoopFS_buckets_le cfg tgt fs now tasks
            (c, { success := false, created := 0, updated := 0,
                  skipped := 0, errors := [] })
          have hm := exportLoopFS_measure_ge cfg tgt fs now tasks
            (c, { success := false, created := 0, updated := 0,
                  skipped := 0, errors := [] })
          unfold buckets at hb
          unfold resMeasure at hm
          simp only [List.length_nil] at hb hm
          simp [exportTasksFS, p1, p2, p3]
          omega
        · intro _
          have hm := exportLoop_measure cfg tgt now tasks
            (c, { success := false, created := 0, updated := 0,
                  skipped := 0, errors := [] })
          unfold resMeasure at hm
          simp only [List.length_nil] at hm
          simp only [exportLoop] at hm
          simp [exportTasks, exportTasksFS, p1, p2, p3]
          omega
        · intro hnp
          exact absurd ⟨p1, p2, p3⟩ hnp

/-- Witness for C2 (amended): with one record, a passing preflight gives
an exact sum of one on the never-raising filesystem, and the bounds hold
on a filesystem whose every save raises (where the sum is in fact two:
the created bucket plus the persist error). -/
theorem batch_result_contract_witness :
    Preflight envOk ∧
    (exportTasks cfgDefault envOk sampleTarget sampleNow [] [samplePage]).2.created +
    (exportTasks cfgDefault envOk sampleTarget sampleNow [] [samplePage]).2.updated +
    (exportTasks cfgDefault envOk sampleTarget sampleNow [] [samplePage]).2.skipped +
    (exportTasks cfgDefault envOk sampleTarget sampleNow [] [samplePage]).2.errors.length =
      ([samplePage] : List NotionPage).length ∧
    ([samplePage] : List NotionPage).length ≤
      (exportTasksFS cfgDefault envOk sampleTarget failFS sampleNow [] [samplePage]).2.created +
      (exportTasksFS cfgDefault envOk sampleTarget failFS sampleNow [] [samplePage]).2.updated +
      (exportTasksFS cfgDefault envOk sampleTarget failFS sampleNow [] [samplePage]).2.skipped +
      (exportTasksFS cfgDefault envOk sampleTarget failFS sampleNow [] [samplePage]).2.errors.length :=
  ⟨⟨rfl, rfl, rfl⟩,
   (batch_result_contract cfgDefault envOk sampleTarget fsOk sampleNow []
     [samplePage]).2.2.1 ⟨rfl, rfl, rfl⟩,
   ((batch_result_contract cfgDefault envOk sampleTarget failFS sampleNow []
     [samplePage]).2.1 ⟨rfl, rfl, rfl⟩).2⟩

/-- Counterexample for C3: a record whose create call fails (the target
returns failure) is classified skipped, but no message is recorded in the
batch errors list, refuting the claim that a failure message is always
recorded there. -/
theorem failed_sync_no_error_recorded_cex :
    failTarget.create (extractTaskData samplePage) = CreateOutcome.failed ∧
    (exportTasks cfgDefault envOk failTarget sampleNow [] [samplePage]).2.skipped = 1 ∧
    (exportTasks cfgDefault envOk failTarget sampleNow [] [samplePage]).2.errors = [] :=
  ⟨rfl, by decide, by decide⟩

/-- Claim C3 as amended: when a single record is eligible and needs a sync
and the target call for it fails by returning failure (create save fails,
or the update call fails), the record is classified skipped, nothing is
appended to the batch errors list (the failure is only printed), the cache
is not mutated, and the loop continues with the remaining records from
exactly that state; when the create call instead raises an exception, an
error message naming the task is appended, no bucket is incremented, the
cache is not mutated, and the loop likewise continues. -/
theorem failed_record_sync_behavior (cfg : Config) (tgt : Target) (now : String)
    (c : Cache) (r : BatchResult) (task : NotionPage)
    (h1 : Eligible cfg task)
    (h2 : ExportCache.hasChanges c task.id (extractTaskData task) = true) :
    (CreateBranchTaken tgt c task.id →
      tgt.create (extractTaskData task) = CreateOutcome.failed →
      processTask cfg tgt now (c, r) task = (c, incSkipped r) ∧
      ∀ rest, exportLoop cfg tgt now (c, r) (task :: rest) =
        exportLoop cfg tgt now (c, incSkipped r) rest) ∧
    (∀ eid, UpdateBranchTaken tgt c task.id eid →
      tgt.update eid (extractTaskData task) = false →
      processTask cfg tgt now (c, r) task = (c, incSkipped r) ∧
      ∀ rest, exportLoop cfg tgt now (c, r) (task :: rest) =
        exportLoop cfg tgt now (c, incSkipped r) rest) ∧
    (∀ m, CreateBranchTaken tgt c task.id →
      tgt.create (extractTaskData task) = CreateOutcome.raises m →
      processTask cfg tgt now (c, r) task = (c, addError r (errMsg task m)) ∧
      ∀ rest, exportLoop cfg tgt now (c, r) (task :: rest) =
        exportLoop cfg tgt now (c, addError r (errMsg task m)) rest) := by
  refine ⟨fun hbr hout => ?_, fun eid hbr hout => ?_, fun m hbr hout => ?_⟩
  · have hp := processTask_create_failed cfg tgt now c r task h1 h2 hbr hout
    exact ⟨hp, fun rest => by rw [exportLoop_cons, hp]⟩
  · have hp := processTask_update_failed cfg tgt now c r task eid h1 h2 hbr hout
    exact ⟨hp, fun rest => by rw [exportLoop_cons, hp]⟩
  · have hp := processTask_create_raises cfg tgt now c r task m h1 h2 hbr hout
    exact ⟨hp, fun rest => by rw [exportLoop_cons, hp]⟩

/-- Witness for C3 (amended): the sample record with a failing create is
skipped with the cache and errors untouched. -/
theorem failed_record_sync_behavior_witness :
    processTask cfgDefault failTarget sampleNow ([], emptyResult) samplePage =
      ([], incSkipped emptyResult) :=
  ((failed_record_sync_behavior cfgDefault failTarget sampleNow [] emptyResult
      samplePage ⟨rfl, rfl⟩ (by decide)).1 (Or.inl (by decide)) rfl).1

/-- Claim C4: when the cached external id for an eligible changed record
does not resolve (fetch finds nothing), the loop falls back to creating a
new target record; on creation success the record is classified created
and the cache entry is overwritten in place with the new external id, so
a lookup now yields the fresh id, not the dead reference. -/
theorem stale_reference_recovery (cfg : Config) (tgt : Target) (now : String)
    (c : Cache) (r : BatchResult) (task : NotionPage) (eid nid : String)
    (h1 : Eligible cfg task)
    (h2 : ExportCache.hasChanges c task.id (extractTaskData task) = true)
    (h3 : ExportCache.getExternalId c task.id = some eid)
    (h4 : eid ≠ "")
    (h5 : tgt.fetch eid = false)
    (h6 : tgt.create (extractTaskData task) = CreateOutcome.ok nid) :
    processTask cfg tgt now (c, r) task =
      (ExportCache.setEntry c task.id nid (extractTaskData task) exporterName now,
       incCreated r) ∧
    ExportCache.getExternalId
      (ExportCache.setEntry c task.id nid (extractTaskData task) exporterName now)
      task.id = some nid := by
  refine ⟨processTask_create_ok cfg tgt now c r task nid h1 h2
    (Or.inr ⟨eid, h3, Or.inr h5⟩) h6, ?_⟩
  unfold ExportCache.getExternalId
  rw [getEntry_setEntry_self]
  rfl

/-- Witness for C4: the stale sample cache is repaired with the fresh
external id. -/
theorem stale_reference_recovery_witness :
    ExportCache.getExternalId staleCache samplePage.id = some ("DEAD") ∧
    processTask cfgDefault staleTarget sampleNow (staleCache, emptyResult) samplePage =
      (ExportCache.setEntry staleCache samplePage.id ("E2")
        (extractTaskData samplePage) exporterName sampleNow,
       incCreated emptyResult) :=
  ⟨by decide,
   (stale_reference_recovery cfgDefault staleTarget sampleNow staleCache
     emptyResult samplePage ("DEAD") ("E2") ⟨rfl, rfl⟩ (by decide) (by decide)
     (by decide) rfl rfl).1⟩

/-- Claim C5: with all preflight checks passing, an always-successful
target and pairwise distinct record ids, a second run over the same
unchanged records returns the cache of the first run unchanged and a
result with zero created, zero updated, every record skipped and no
errors. -/
theorem reconciliation_idempotent (cfg : Config) (env : Env) (tgt : Target)
    (now1 now2 : String) (c0 : Cache) (tasks : List NotionPage)
    (henv : Preflight env) (hsucc : SuccessfulTarget tgt)
    (hnodup : (tasks.map (fun t => t.id)).Nodup) :
    exportTasks cfg env tgt now2 ((exportTasks cfg env tgt now1 c0 tasks).1) tasks =
      ((exportTasks cfg env tgt now1 c0 tasks).1,
       { success := true, created := 0, updated := 0,
         skipped := tasks.length, errors := [] }) := by
  obtain ⟨p1, p2, p3⟩ := henv
  have hc1 : (exportTasks cfg env tgt now1 c0 tasks).1 =
      (exportLoop cfg tgt now1 (c0, emptyResult) tasks).1 := by
    simp [exportTasks, exportTasksFS, exportLoop, p1, p2, p3, emptyResult]
  have hall2 : ∀ t ∈ tasks,
      Synced cfg ((exportTasks cfg env tgt now1 c0 tasks).1) t := by
    rw [hc1]
    exact exportLoop_establishes_synced cfg tgt now1 hsucc tasks
      (c0, emptyResult) hnodup
  generalize hgen : (exportTasks cfg env tgt now1 c0 tasks).1 = c1 at hall2 ⊢
  have h2run := exportLoop_all_synced cfg tgt now2 tasks c1 emptyResult hall2
  simp only [emptyResult] at h2run
  simp only [exportLoop] at h2run
  simp [exportTasks, exportTasksFS, p1, p2, p3]
  rw [h2run]
  simp

/-- Witness for C5: one record, empty starting cache, successful target:
the second run only skips. -/
theorem reconciliation_idempotent_witness :
    exportTasks cfgDefault envOk sampleTarget sampleNow
      ((exportTasks cfgDefault envOk sampleTarget ("2025-01-10T12:00:00") []
        [samplePage]).1) [samplePage] =
      ((exportTasks cfgDefault envOk sampleTarget ("2025-01-10T12:00:00") []
        [samplePage]).1,
       { success := true, created := 0, updated := 0,
         skipped := 1, errors := [] }) :=
  reconciliation_idempotent cfgDefault envOk sampleTarget
    ("2025-01-10T12:00:00") sampleNow [] [samplePage]
    ⟨rfl, rfl, rfl⟩ ⟨fun _ => rfl, fun _ _ => rfl⟩ (by decide)

/-- Claim C9: over a whole run from any starting cache, any key whose
cache entry differs from the starting state holds the entry of one of the
processed records, written with an external id that was just returned by
a successful create or confirmed by a successful update of that record —
the cache never acquires an entry for a record that was not successfully
synced during the run. -/
theorem cache_writes_only_after_success (cfg : Config) (env : Env) (tgt : Target)
    (now : String) (c0 : Cache) (tasks : List NotionPage) (k : Key)
    (h : Cache.get (exportTasks cfg env tgt now c0 tasks).1 k ≠ Cache.get c0 k) :
    ∃ t ∈ tasks, t.id = k ∧ ∃ eid,
      Cache.get (exportTasks cfg env tgt now c0 tasks).1 k =
        some { external_id := eid, task_data := extractTaskData t,
               exporter_type := exporterName, last_synced := now } ∧
      (tgt.create (extractTaskData t) = CreateOutcome.ok eid ∨
       tgt.update eid (extractTaskData t) = true) := by
  cases p1 : env.config_valid with
  | false =>
    simp [exportTasks, exportTasksFS, p1] at h
  | true =>
    cases p2 : env.access_granted with
    | false =>
      simp [exportTasks, exportTasksFS, p1, p2] at h
    | true =>
      cases p3 : env.calendar_ready with
      | false =>
        simp [exportTasks, exportTasksFS, p1, p2, p3] at h
      | true =>
        simp only [exportTasks, exportTasksFS, p1, p2, p3] at h ⊢
        simp at h ⊢
        have hp := exportLoop_provenance cfg tgt now tasks c0
          { success := false, created := 0, updated := 0,
            skipped := 0, errors := [] } k
        simp only [exportLoop] at hp
        exact hp h

/-- Claim C8: serializing a cache of N entries to its JSON save format
and reading it back reproduces the same mapping — same keys in the same
order and the same external_id, task_data snapshot, exporter_type and
last_synced values — for every N, the empty cache included; the only
requirement is that every key is an actual string, as source ids are
(JSON object keys are strings, so a None key, rendered "null" on save,
could not round-trip). -/
theorem cache_save_load_roundtrip (c : Cache) (h : ∀ p ∈ c, p.1 ≠ none) :
    decodeCache (encodeCache c) = some c := by
  induction c with
  | nil => rfl
  | cons p rest ih =>
    obtain ⟨k, e⟩ := p
    cases k with
    | none => exact absurd rfl (h (none, e) (List.mem_cons_self _ _))
    | some s =>
      have hrest : decodeEntries
          (List.map (fun p => (keyStr p.1, encodeEntry p.2)) rest) = some rest := by
        have hr := ih (fun q hq => h q (List.mem_cons_of_mem _ hq))
        simpa [encodeCache, decodeCache] using hr
      show decodeEntries
          (List.map (fun p => (keyStr p.1, encodeEntry p.2)) ((some s, e) :: rest)) =
        some ((some s, e) :: rest)
      rw [List.map_cons]
      simp only [keyStr] at hrest
      simp only [decodeEntries, decodeEntry_encodeEntry, keyStr]
      simp [hrest]

/-- Witness for C8: a one-entry cache round-trips through the save
format. -/
theorem cache_save_load_roundtrip_witness :
    (∀ p ∈ staleCache, p.1 ≠ none) ∧
    decodeCache (encodeCache staleCache) = some staleCache :=
  ⟨by decide, cache_save_load_roundtrip staleCache (by decide)⟩

/-- Witness for C9: after creating the sample record, the fresh cache
entry is justified by the successful create call. -/
theorem cache_writes_only_after_success_witness :
    Cache.get (exportTasks cfgDefault envOk sampleTarget sampleNow []
        [samplePage]).1 (some ("t1")) ≠ Cache.get [] (some ("t1")) ∧
    (∃ t ∈ ([samplePage] : List NotionPage), t.id = some ("t1") ∧ ∃ eid,
      Cache.get (exportTasks cfgDefault envOk sampleTarget sampleNow []
          [samplePage]).1 (some ("t1")) =
        some { external_id := eid, task_data := extractTaskData t,
               exporter_type := exporterName, last_synced := sampleNow } ∧
      (sampleTarget.create (extractTaskData t) = CreateOutcome.ok eid ∨
       sampleTarget.update eid (extractTaskData t) = true)) :=
  ⟨by decide,
   cache_writes_only_after_success cfgDefault envOk sampleTarget sampleNow []
     [samplePage] (some ("t1")) (by decide)⟩
